import Mathlib

/-!
Shallow embedding of the bill-manager persistence layer (`db.py`):
a `JsonManager` base (read_json / write_json) and two record managers,
`RegisteredBills` (read_bills / add_bill / delete_bill) and
`PaidBills` (read_paid_bills / pay_bill / delete_paid_bill).
Python runtime values are modelled by `PyVal`, Python exceptions by
`PyErr` through the `Except` monad, and the backing file by `FileState`.
-/

/-- Python exceptions that the modelled code can raise. -/
inductive PyErr where
  | keyError
  | typeError
  | attributeError
  | valueError
deriving DecidableEq, Repr

/-- A Python `date` object: `datetime.date(year, month, day)`. -/
structure PyDate where
  year : Nat
  month : Nat
  day : Nat
deriving DecidableEq, Repr

/-- Python runtime values as they occur in this program: JSON scalars,
lists, dicts (as ordered association lists, first binding wins, matching
CPython dicts whose keys are unique), and `date` objects (which appear
in memory after `read_paid_bills` replaces the stored string). -/
inductive PyVal where
  | null
  | bool (b : Bool)
  | num (n : Int)
  | str (s : String)
  | date (d : PyDate)
  | arr (xs : List PyVal)
  | obj (kvs : List (String × PyVal))

/-- Python `==` on the values of this program (structural equality on
JSON-like data; CPython's `bool == int` coercion never arises in the
modelled traces, where compared values are ints and strings). -/
def pyEq : PyVal → PyVal → Bool
  | .null, .null => true
  | .bool a, .bool b => a == b
  | .num a, .num b => a == b
  | .str a, .str b => a == b
  | .date a, .date b => a == b
  | .arr xs, .arr ys => pyEqList xs ys
  | .obj kvs, .obj lvs => pyEqKVs kvs lvs
  | _, _ => false
where
  pyEqList : List PyVal → List PyVal → Bool
    | [], [] => true
    | x :: xs, y :: ys => pyEq x y && pyEqList xs ys
    | _, _ => false
  pyEqKVs : List (String × PyVal) → List (String × PyVal) → Bool
    | [], [] => true
    | (k, v) :: xs, (l, w) :: ys => k == l && pyEq v w && pyEqKVs xs ys
    | _, _ => false

/-! ## Python dict and value helpers -/

/-- Lookup in an ordered association list (CPython dict lookup; keys of
parsed JSON objects are unique, so first match is the match). -/
def lookupFirst : List (String × PyVal) → String → Option PyVal
  | [], _ => none
  | (k, v) :: rest, key => if k = key then some v else lookupFirst rest key

/-- `d[k] = v` on a dict: replace the existing binding, else append. -/
def setFirst : List (String × PyVal) → String → PyVal → List (String × PyVal)
  | [], k, v => [(k, v)]
  | (k', v') :: rest, k, v =>
      if k' = k then (k, v) :: rest else (k', v') :: setFirst rest k v

/-- Python subscript `x[k]` with a string key: `KeyError` when the key is
absent, `TypeError` when `x` is not a dict. -/
def pyIndex (x : PyVal) (k : String) : Except PyErr PyVal :=
  match x with
  | .obj kvs =>
      match lookupFirst kvs k with
      | some v => .ok v
      | none => .error .keyError
  | _ => .error .typeError

/-- Python `x.get(k, dflt)`: `AttributeError` when `x` is not a dict. -/
def pyGet (x : PyVal) (k : String) (dflt : PyVal) : Except PyErr PyVal :=
  match x with
  | .obj kvs => .ok ((lookupFirst kvs k).getD dflt)
  | _ => .error .attributeError

/-- `d[k] = v` on a Python value known to be a dict (leaves non-dicts
unchanged; every use site has already indexed `x` as a dict). -/
def dset (x : PyVal) (k : String) (v : PyVal) : PyVal :=
  match x with
  | .obj kvs => .obj (setFirst kvs k v)
  | j => j

/-- Iterating a Python value as a list. The program only ever iterates
the `"bills"` value; iterating a non-list is modelled as `TypeError`
(the only non-list shapes reachable here are scalars). -/
def asList (x : PyVal) : Except PyErr (List PyVal) :=
  match x with
  | .arr xs => .ok xs
  | _ => .error .typeError

/-- A Python string, else `TypeError` (as `strptime` raises on
non-string input). -/
def asStr (x : PyVal) : Except PyErr String :=
  match x with
  | .str s => .ok s
  | _ => .error .typeError

/-- `max(xs, default=0)` over Python ints. -/
def maxD : List Int → Int
  | [] => 0
  | x :: xs => xs.foldl max x

/-! ## JsonManager: the backing file and read_json / write_json -/

/-- State of the backing JSON file: absent, present but unparseable, or
present with parsed content `doc` (any JSON value: `json.load` returns
whatever the file holds). -/
inductive FileState where
  | missing
  | corrupt
  | valid (doc : PyVal)

/-- `JsonManager.read_json`: `{"bills": []}` when the file is missing
(`os.path.exists` false) or unreadable (`json.JSONDecodeError` /
`FileNotFoundError` caught); otherwise the parsed content, unchanged.
Total: it never raises for missing or corrupt input. -/
def read_json : FileState → PyVal
  | .missing => .obj [("bills", .arr [])]
  | .corrupt => .obj [("bills", .arr [])]
  | .valid doc => doc

/-- `JsonManager.write_json`: serialise `data` over the file. Every
document the program writes is a dict of JSON-serialisable values, so
the file afterwards holds exactly `data`. -/
def write_json (data : PyVal) : FileState :=
  .valid data

/-! ## RegisteredBills -/

/-- `self.read_json().get("bills", [])` — the body of
`RegisteredBills.read_bills`. -/
def read_bills (fs : FileState) : Except PyErr PyVal :=
  pyGet (read_json fs) "bills" (.arr [])

/-- The generator `(bill.get(field, 0) for bill in bills)`:
`AttributeError` on a non-dict record, errors surfacing left to right
as the generator is consumed. -/
def billIds (field : String) : List PyVal → Except PyErr (List PyVal)
  | [] => .ok []
  | b :: rest => do
      let v ← pyGet b field (.num 0)
      let vs ← billIds field rest
      .ok (v :: vs)

/-- The int views of the generated id values: a non-int id makes `max`'s
comparison (or the `+ 1`) raise `TypeError`. CPython's bool-as-int
coercion is not modelled; no id in the program is a bool. -/
def toInts : List PyVal → Except PyErr (List Int)
  | [] => .ok []
  | .num n :: rest => do
      let ns ← toInts rest
      .ok (n :: ns)
  | _ :: _ => .error .typeError

/-- `max(ids, default=0) + 1` over Python values. -/
def pyMaxPlusOne (vs : List PyVal) : Except PyErr Int := do
  let ns ← toInts vs
  Except.ok (maxD ns + 1)

/-- `RegisteredBills.add_bill(name, value, due_day, monthly_bill)`.
`value` (a float in the signature) is carried opaquely as a `PyVal`.
Returns the written file state together with `data["bills"]`. -/
def add_bill (fs : FileState) (name : String) (value : PyVal)
    (due_day : Int) (monthly_bill : Bool) :
    Except PyErr (FileState × List PyVal) := do
  let data := read_json fs
  let bills ← pyIndex data "bills"
  let billsL ← asList bills
  let ids ← billIds "bill_id" billsL
  let new_id ← pyMaxPlusOne ids
  let new_bill : PyVal := .obj [("bill_id", .num new_id),
    ("name", .str name), ("value", value),
    ("due_date", .num due_day), ("monthly_bill", .bool monthly_bill)]
  let updated := billsL ++ [new_bill]
  let data2 := dset data "bills" (.arr updated)
  Except.ok (write_json data2, updated)

/-- The comprehension `[bill for bill in bills if bill[field] != target]`:
each record is subscripted left to right, so a record without the field
(or a non-dict record) raises before the list is built. -/
def removeById (field : String) (target : PyVal) :
    List PyVal → Except PyErr (List PyVal)
  | [] => .ok []
  | b :: rest => do
      let v ← pyIndex b field
      let tail ← removeById field target rest
      if pyEq v target then .ok tail else .ok (b :: tail)

/-- `RegisteredBills.delete_bill(id_bill)`. The parameter is a `PyVal`:
Python does not enforce the `int` annotation. When nothing was removed
the function returns `False` without writing, so the file state is the
input state. -/
def delete_bill (fs : FileState) (id_bill : PyVal) :
    Except PyErr (FileState × Bool) := do
  let data := read_json fs
  let bills ← pyIndex data "bills"
  let billsL ← asList bills
  let updated_bills ← removeById "bill_id" id_bill billsL
  if billsL.length = updated_bills.length then
    Except.ok (fs, false)
  else
    let data2 := dset data "bills" (.arr updated_bills)
    Except.ok (write_json data2, true)

/-! ## Dates: `strftime("%Y-%m-%d")` and `strptime(_, "%Y-%m-%d")` -/

/-- Gregorian leap year, as `calendar.isleap`. -/
def isLeap (y : Nat) : Bool :=
  (y % 4 == 0 && y % 100 != 0) || y % 400 == 0

/-- Length of a month. -/
def daysInMonth (y m : Nat) : Nat :=
  if m = 2 then (if isLeap y then 29 else 28)
  else if m = 4 ∨ m = 6 ∨ m = 9 ∨ m = 11 then 30
  else 31

/-- The argument ranges `datetime.date(year, month, day)` accepts. -/
def PyDate.valid (d : PyDate) : Prop :=
  1 ≤ d.year ∧ d.year ≤ 9999 ∧ 1 ≤ d.month ∧ d.month ≤ 12 ∧
    1 ≤ d.day ∧ d.day ≤ daysInMonth d.year d.month

instance (d : PyDate) : Decidable d.valid := by
  unfold PyDate.valid; infer_instance

/-- Decimal value of a digit string (most significant first). -/
def digitsToNat (cs : List Char) : Nat :=
  cs.foldl (fun acc c => 10 * acc + (c.toNat - 48)) 0

/-- The character of a decimal digit. -/
def digitChar : Nat → Char
  | 0 => '0' | 1 => '1' | 2 => '2' | 3 => '3' | 4 => '4'
  | 5 => '5' | 6 => '6' | 7 => '7' | 8 => '8' | 9 => '9'
  | _ => '*'

/-- Decimal digits of `n`, most significant first (empty for 0, which is
below every valid date field and always zero-padded at use sites). -/
def natToDigits (n : Nat) : List Char :=
  (Nat.digits 10 n).reverse.map digitChar

/-- Left-pad with `'0'` to width `w`. -/
def padZeros (w : Nat) (cs : List Char) : List Char :=
  List.replicate (w - cs.length) '0' ++ cs

/-- `date.strftime("%Y-%m-%d")`: zero-padded 4-digit year, 2-digit month
and day, hyphen-separated. (Years below 1000 are padded by some
platforms only; every date the claims touch has a 4-digit year.) -/
def formatDate (d : PyDate) : String :=
  ⟨padZeros 4 (natToDigits d.year) ++ '-' ::
    (padZeros 2 (natToDigits d.month) ++ '-' ::
      padZeros 2 (natToDigits d.day))⟩

/-- Split a character list at every `'-'`. -/
def splitDash : List Char → List (List Char)
  | [] => [[]]
  | c :: cs =>
      if c = '-' then [] :: splitDash cs
      else
        match splitDash cs with
        | p :: ps => (c :: p) :: ps
        | [] => [[c]]

/-- Exactly `w` decimal digits (CPython `_strptime` matches `%Y` against
four digits). -/
def isDigitsExact (w : Nat) (cs : List Char) : Bool :=
  decide (cs.length = w) && cs.all (fun c => c.isDigit)

/-- One to `w` decimal digits (`%m` and `%d` match one or two digits). -/
def isDigits1to (w : Nat) (cs : List Char) : Bool :=
  decide (1 ≤ cs.length ∧ cs.length ≤ w) && cs.all (fun c => c.isDigit)

/-- `datetime.strptime(s, "%Y-%m-%d").date()`: `none` models the
`ValueError` raised when the text does not match the format or the
fields are out of range. -/
def parseDate (s : String) : Option PyDate :=
  match splitDash s.data with
  | [ys, ms, ds] =>
      if isDigitsExact 4 ys && isDigits1to 2 ms && isDigits1to 2 ds then
        let y := digitsToNat ys
        let m := digitsToNat ms
        let d := digitsToNat ds
        if decide (PyDate.valid ⟨y, m, d⟩) then some ⟨y, m, d⟩ else none
      else none
  | _ => none

/-! ## PaidBills -/

/-- One iteration of the loop in `read_paid_bills`:
`bill["payment_date"] = datetime.strptime(bill["payment_date"],
"%Y-%m-%d").date()` — subscripting, `strptime` on a non-string, and an
unparseable date each raise. -/
def parsePaymentDate (b : PyVal) : Except PyErr PyVal := do
  let pd ← pyIndex b "payment_date"
  let s ← asStr pd
  match parseDate s with
  | some d => Except.ok (dset b "payment_date" (.date d))
  | none => Except.error PyErr.valueError

/-- The `for bill in data.get("bills", [])` loop of `read_paid_bills`,
converting records in order; the first failing record raises. -/
def convertDates : List PyVal → Except PyErr (List PyVal)
  | [] => .ok []
  | b :: rest => do
      let b' ← parsePaymentDate b
      let rest' ← convertDates rest
      .ok (b' :: rest')

/-- `PaidBills.read_paid_bills`: converts each record's `payment_date`
string back to a date object in place, then returns the list. Any
record that fails aborts the whole read with the raised error. -/
def read_paid_bills (fs : FileState) : Except PyErr (List PyVal) := do
  let data := read_json fs
  let bills ← pyGet data "bills" (.arr [])
  let billsL ← asList bills
  convertDates billsL

/-- `PaidBills.pay_bill(id_bill, date_of_payment)`: same id scheme as
`add_bill` over the `"id_paid_bill"` field; the payment date is stored
as its `"%Y-%m-%d"` text. -/
def pay_bill (fs : FileState) (id_bill : PyVal) (date_of_payment : PyDate) :
    Except PyErr (FileState × List PyVal) := do
  let data := read_json fs
  let paid_bills ← pyIndex data "bills"
  let billsL ← asList paid_bills
  let ids ← billIds "id_paid_bill" billsL
  let new_id ← pyMaxPlusOne ids
  let new_paid_bill : PyVal := .obj [("id_paid_bill", .num new_id),
    ("id_bill", id_bill),
    ("payment_date", .str (formatDate date_of_payment))]
  let updated := billsL ++ [new_paid_bill]
  let data2 := dset data "bills" (.arr updated)
  Except.ok (write_json data2, updated)

/-- `PaidBills.delete_paid_bill(id_paid_bill)`: same contract as
`delete_bill`, filtering on the `"id_paid_bill"` field. -/
def delete_paid_bill (fs : FileState) (id_paid_bill : PyVal) :
    Except PyErr (FileState × Bool) := do
  let data := read_json fs
  let paid_bills ← pyIndex data "bills"
  let billsL ← asList paid_bills
  let updated_paid_bills ← removeById "id_paid_bill" id_paid_bill billsL
  if billsL.length = updated_paid_bills.length then
    Except.ok (fs, false)
  else
    let data2 := dset data "bills" (.arr updated_paid_bills)
    Except.ok (write_json data2, true)

/-! ## Statement helpers -/

/-- The id value a record carries under `field`, when it is a dict that
has the field. -/
def idField (field : String) (b : PyVal) : Option PyVal :=
  match b with
  | .obj kvs => lookupFirst kvs field
  | _ => none

/-- The comprehension predicate `bill[field] != target`, read off a
record that carries the field. -/
def keepsId (field : String) (target : PyVal) (b : PyVal) : Bool :=
  !pyEq ((idField field b).getD PyVal.null) target

/-- Whether a document is a dict carrying the `"bills"` key. -/
def hasBillsKey (x : PyVal) : Bool :=
  match x with
  | .obj kvs => (lookupFirst kvs "bills").isSome
  | _ => false

/-! ## Helper lemmas -/

theorem pyIndex_of_idField (field : String) (b : PyVal) (v : PyVal)
    (h : idField field b = some v) : pyIndex b field = Except.ok v := by
  cases b <;> simp [idField] at h
  simp [pyIndex, h]

theorem digit_ne_dash (c : Char) (h : c.isDigit = true) : c ≠ '-' := by
  intro hc
  subst hc
  simp [Char.isDigit] at h

theorem foldl_max_le (l : List Int) :
    ∀ init : Int, init ≤ l.foldl max init ∧ ∀ x ∈ l, x ≤ l.foldl max init := by
  induction l with
  | nil => intro init; simp
  | cons a t ih =>
      intro init
      refine ⟨le_trans (le_max_left init a) (ih (max init a)).1, ?_⟩
      intro x hx
      rcases List.mem_cons.mp hx with h | h
      · subst h
        exact le_trans (le_max_right init x) (ih (max init x)).1
      · exact (ih (max init a)).2 x h

theorem le_maxD (l : List Int) (x : Int) (hx : x ∈ l) : x ≤ maxD l := by
  cases l with
  | nil => cases hx
  | cons a t =>
      rcases List.mem_cons.mp hx with h | h
      · subst h
        exact (foldl_max_le t x).1
      · exact (foldl_max_le t a).2 x h

theorem toInts_map_num (ns : List Int) :
    toInts (ns.map PyVal.num) = Except.ok ns := by
  induction ns with
  | nil => rfl
  | cons a t ih => simp [toInts, ih, bind, Except.bind]

theorem toInts_ok (vs : List PyVal) (ns : List Int)
    (h : toInts vs = Except.ok ns) : vs = ns.map PyVal.num := by
  induction vs generalizing ns with
  | nil =>
      simp [toInts] at h
      simp [← h]
  | cons v rest ih =>
      cases v
      case num n =>
        cases hr : toInts rest with
        | error e => rw [toInts, hr] at h; simp [bind, Except.bind] at h
        | ok ms =>
            rw [toInts, hr] at h
            simp [bind, Except.bind] at h
            rw [← h, List.map_cons, ← ih ms hr]
      all_goals simp [toInts] at h

theorem pyMaxPlusOne_map_num (ns : List Int) :
    pyMaxPlusOne (ns.map PyVal.num) = Except.ok (maxD ns + 1) := by
  simp [pyMaxPlusOne, toInts_map_num, bind, Except.bind]

theorem pyMaxPlusOne_gt (vs : List PyVal) (nid : Int)
    (h : pyMaxPlusOne vs = Except.ok nid) :
    ∀ n : Int, PyVal.num n ∈ vs → n < nid := by
  intro n hn
  cases hts : toInts vs with
  | error e => rw [pyMaxPlusOne, hts] at h; simp [bind, Except.bind] at h
  | ok ns =>
      rw [pyMaxPlusOne, hts] at h
      simp [bind, Except.bind] at h
      have hvs := toInts_ok vs ns hts
      subst hvs
      have : n ∈ ns := by
        rcases List.mem_map.mp hn with ⟨m, hm, hmn⟩
        cases hmn
        exact hm
      have := le_maxD ns n this
      omega

theorem lookupFirst_setFirst (kvs : List (String × PyVal)) (k : String) (v : PyVal) :
    lookupFirst (setFirst kvs k v) k = some v := by
  induction kvs with
  | nil => simp [setFirst, lookupFirst]
  | cons p rest ih =>
      obtain ⟨k', v'⟩ := p
      by_cases h : k' = k
      · simp [setFirst, h, lookupFirst]
      · simp [setFirst, h, lookupFirst, ih]

theorem removeById_eq_filter (field : String) (target : PyVal) (bills : List PyVal)
    (h : ∀ b ∈ bills, (idField field b).isSome) :
    removeById field target bills =
      Except.ok (bills.filter (keepsId field target)) := by
  induction bills with
  | nil => rfl
  | cons b rest ih =>
      have hb := h b (List.mem_cons_self b rest)
      obtain ⟨v, hv⟩ := Option.isSome_iff_exists.mp hb
      have hrest := ih (fun x hx => h x (List.mem_cons_of_mem b hx))
      cases hpe : pyEq v target <;>
        simp [removeById, pyIndex_of_idField field b v hv, hrest, bind,
          Except.bind, List.filter_cons, keepsId, hv, hpe]

theorem convertDates_error (l : List PyVal) (b : PyVal) (hb : b ∈ l) (e : PyErr)
    (hf : parsePaymentDate b = Except.error e) :
    ∃ e', convertDates l = Except.error e' := by
  induction l with
  | nil => cases hb
  | cons a t ih =>
      rcases List.mem_cons.mp hb with h | h
      · subst h
        exact ⟨e, by simp [convertDates, hf, bind, Except.bind]⟩
      · cases ha : parsePaymentDate a with
        | error e2 => exact ⟨e2, by simp [convertDates, ha, bind, Except.bind]⟩
        | ok a2 =>
            obtain ⟨e3, he3⟩ := ih h
            exact ⟨e3, by simp [convertDates, ha, he3, bind, Except.bind]⟩

theorem digitChar_props : ∀ d : Nat, d < 10 →
    (digitChar d).isDigit = true ∧ (digitChar d).toNat - 48 = d := by decide

theorem natToDigits_all_digit (n : Nat) : ∀ c ∈ natToDigits n, c.isDigit = true := by
  intro c hc
  simp [natToDigits] at hc
  obtain ⟨d, hd, rfl⟩ := hc
  exact (digitChar_props d (Nat.digits_lt_base (by norm_num) hd)).1

theorem digitsToNat_natToDigits (n : Nat) : digitsToNat (natToDigits n) = n := by
  unfold digitsToNat natToDigits
  rw [List.foldl_map]
  have hext : (Nat.digits 10 n).reverse.foldl
      (fun acc d => 10 * acc + ((digitChar d).toNat - 48)) 0 =
      (Nat.digits 10 n).reverse.foldl (fun acc d => 10 * acc + d) 0 := by
    apply List.foldl_ext
    intro a b hb
    rw [(digitChar_props b (Nat.digits_lt_base (by norm_num) (List.mem_reverse.mp hb))).2]
  rw [hext]
  have : ∀ L : List Nat, L.reverse.foldl (fun acc d => 10 * acc + d) 0 = Nat.ofDigits 10 L := by
    intro L
    induction L with
    | nil => simp [Nat.ofDigits_nil]
    | cons d t ih =>
        simp [List.reverse_cons, List.foldl_append, ih, Nat.ofDigits_cons]
        ring
  rw [this, Nat.ofDigits_digits]

theorem digitsToNat_padZeros (w : Nat) (cs : List Char) :
    digitsToNat (padZeros w cs) = digitsToNat cs := by
  unfold padZeros digitsToNat
  generalize w - cs.length = k
  induction k with
  | zero => rfl
  | succ k ih => simpa [List.replicate_succ] using ih

theorem digits_len_le (n k : Nat) (h : n < 10 ^ k) : (Nat.digits 10 n).length ≤ k := by
  by_contra hlt
  push_neg at hlt
  rcases Nat.eq_zero_or_pos n with rfl | hn
  · simp [Nat.digits_zero] at hlt
  · have h1 := Nat.base_pow_length_digits_le 10 n (by norm_num) (Nat.pos_iff_ne_zero.mp hn)
    have h2 : (10:ℕ) ^ (k + 1) ≤ 10 ^ (Nat.digits 10 n).length :=
      Nat.pow_le_pow_right (by norm_num) hlt
    rw [pow_succ] at h2
    have h3 : 10 ^ k * 10 ≤ 10 * n := le_trans h2 h1
    have h4 : 10 ^ k ≤ n := by nlinarith
    omega

theorem padZeros_length (w : Nat) (cs : List Char) (h : cs.length ≤ w) :
    (padZeros w cs).length = w := by
  simp [padZeros]
  omega

theorem natToDigits_length (n : Nat) : (natToDigits n).length = (Nat.digits 10 n).length := by
  simp [natToDigits]

theorem splitDash_no_dash (a : List Char) (h : ∀ c ∈ a, c ≠ '-') : splitDash a = [a] := by
  induction a with
  | nil => rfl
  | cons c cs ih =>
      have hc : c ≠ '-' := h c (List.mem_cons_self c cs)
      rw [splitDash, if_neg hc, ih (fun x hx => h x (List.mem_cons_of_mem c hx))]

theorem splitDash_append (a rest : List Char) (h : ∀ c ∈ a, c ≠ '-') :
    splitDash (a ++ '-' :: rest) = a :: splitDash rest := by
  induction a with
  | nil => simp [splitDash]
  | cons c cs ih =>
      have hc : c ≠ '-' := h c (List.mem_cons_self c cs)
      simp only [List.cons_append]
      rw [splitDash, if_neg hc, ih (fun x hx => h x (List.mem_cons_of_mem c hx))]

theorem padZeros_all_digit (w n : Nat) :
    ∀ c ∈ padZeros w (natToDigits n), c.isDigit = true := by
  intro c hc
  rw [padZeros, List.mem_append] at hc
  rcases hc with hc | hc
  · rw [List.eq_of_mem_replicate hc]; rfl
  · exact natToDigits_all_digit n c hc

theorem daysInMonth_le (y m : Nat) : daysInMonth y m ≤ 31 := by
  unfold daysInMonth
  split
  · split <;> omega
  · split <;> omega

theorem parseDate_formatDate (d : PyDate) (h : d.valid) :
    parseDate (formatDate d) = some d := by
  obtain ⟨y, m, dd⟩ := d
  unfold PyDate.valid at h
  dsimp only at h
  obtain ⟨h1, h2, h3, h4, h5, h6⟩ := h
  have h31 : daysInMonth y m ≤ 31 := daysInMonth_le y m
  have hY := padZeros_all_digit 4 y
  have hM := padZeros_all_digit 2 m
  have hD := padZeros_all_digit 2 dd
  have hYnd : ∀ c ∈ padZeros 4 (natToDigits y), c ≠ '-' :=
    fun c hc => digit_ne_dash c (hY c hc)
  have hMnd : ∀ c ∈ padZeros 2 (natToDigits m), c ≠ '-' :=
    fun c hc => digit_ne_dash c (hM c hc)
  have hDnd : ∀ c ∈ padZeros 2 (natToDigits dd), c ≠ '-' :=
    fun c hc => digit_ne_dash c (hD c hc)
  have hYlen : (padZeros 4 (natToDigits y)).length = 4 := by
    apply padZeros_length
    rw [natToDigits_length]
    exact digits_len_le y 4 (by omega)
  have hMlen : (padZeros 2 (natToDigits m)).length = 2 := by
    apply padZeros_length
    rw [natToDigits_length]
    exact digits_len_le m 2 (by omega)
  have hDlen : (padZeros 2 (natToDigits dd)).length = 2 := by
    apply padZeros_length
    rw [natToDigits_length]
    exact digits_len_le dd 2 (by omega)
  have hsplit : splitDash (formatDate ⟨y, m, dd⟩).data =
      [padZeros 4 (natToDigits y), padZeros 2 (natToDigits m),
        padZeros 2 (natToDigits dd)] := by
    show splitDash (padZeros 4 (natToDigits y) ++ '-' ::
      (padZeros 2 (natToDigits m) ++ '-' :: padZeros 2 (natToDigits dd))) = _
    rw [splitDash_append _ _ hYnd, splitDash_append _ _ hMnd, splitDash_no_dash _ hDnd]
  have hYex : isDigitsExact 4 (padZeros 4 (natToDigits y)) = true := by
    simp [isDigitsExact, hYlen, List.all_eq_true]
    exact hY
  have hM1 : isDigits1to 2 (padZeros 2 (natToDigits m)) = true := by
    simp [isDigits1to, hMlen, List.all_eq_true]
    exact hM
  have hD1 : isDigits1to 2 (padZeros 2 (natToDigits dd)) = true := by
    simp [isDigits1to, hDlen, List.all_eq_true]
    exact hD
  have hYv : digitsToNat (padZeros 4 (natToDigits y)) = y := by
    rw [digitsToNat_padZeros, digitsToNat_natToDigits]
  have hMv : digitsToNat (padZeros 2 (natToDigits m)) = m := by
    rw [digitsToNat_padZeros, digitsToNat_natToDigits]
  have hDv : digitsToNat (padZeros 2 (natToDigits dd)) = dd := by
    rw [digitsToNat_padZeros, digitsToNat_natToDigits]
  have hvalid : PyDate.valid ⟨y, m, dd⟩ := ⟨h1, h2, h3, h4, h5, h6⟩
  unfold parseDate
  rw [hsplit]
  simp only [hYex, hM1, hD1, Bool.and_self, if_true, hYv, hMv, hDv,
    Bool.true_and, Bool.and_true]
  rw [if_pos (decide_eq_true hvalid)]

/-! ## Claims -/

theorem length_filter_lt_of_exists {α : Type} (p : α → Bool) (l : List α)
    (h : ∃ a ∈ l, ¬ p a = true) : (l.filter p).length < l.length := by
  induction l with
  | nil => simp at h
  | cons a t ih =>
      by_cases hp : p a = true
      · obtain ⟨x, hx, hpx⟩ := h
        rcases List.mem_cons.mp hx with rfl | hx
        · exact absurd hp hpx
        · have := ih ⟨x, hx, hpx⟩
          simp [List.filter_cons, hp]
          omega
      · have hle := List.length_filter_le p t
        simp [List.filter_cons, hp]
        omega

/-- C4: for every file path, `read_json` returns a fresh document whose
single `"bills"` key maps to an empty collection whenever the file does
not exist or its content fails to parse as JSON; being a total function
of the file state, it never raises for missing or corrupt input. -/
theorem read_json_missing_or_corrupt_default :
    read_json FileState.missing = PyVal.obj [("bills", PyVal.arr [])] ∧
    read_json FileState.corrupt = PyVal.obj [("bills", PyVal.arr [])] :=
  ⟨rfl, rfl⟩

/-- C3 counterexample: a file holding the valid JSON object
`{"x": 1}` — whose top level lacks the `"bills"` key — is returned by
`read_json` unchanged, so the returned document does not contain the
collection key. -/
theorem read_json_can_lack_bills_key :
    hasBillsKey (read_json (FileState.valid
      (PyVal.obj [("x", PyVal.num 1)]))) = false := rfl

/-- C3 (amended): after a read of a missing or corrupt store the
document contains the collection key (mapped to an empty collection);
a read of a file holding valid JSON returns that content unchanged, so
the key is present only when the stored document already carried it. -/
theorem read_json_bills_key_amended :
    (∀ fs : FileState, fs = FileState.missing ∨ fs = FileState.corrupt →
      read_json fs = PyVal.obj [("bills", PyVal.arr [])]) ∧
    (∀ doc : PyVal, read_json (FileState.valid doc) = doc) := by
  constructor
  · rintro fs (rfl | rfl) <;> rfl
  · intro doc; rfl

theorem read_json_bills_key_amended_witness :
    read_json FileState.corrupt = PyVal.obj [("bills", PyVal.arr [])] ∧
    read_json (FileState.valid (PyVal.obj [("x", PyVal.num 1)])) =
      PyVal.obj [("x", PyVal.num 1)] :=
  ⟨read_json_bills_key_amended.1 FileState.corrupt (Or.inr rfl),
   read_json_bills_key_amended.2 (PyVal.obj [("x", PyVal.num 1)])⟩

/-- C9: for a stored file containing a valid JSON object that lacks the
`"bills"` key, `read_bills` returns the empty list (the lookup is
defaulted through `.get`), while `add_bill`, `delete_bill`, `pay_bill`
and `delete_paid_bill` on the same file raise `KeyError` because they
index the document with `data["bills"]` unguarded. -/
theorem missing_key_read_defaults_mutators_raise
    (kvs : List (String × PyVal)) (h : lookupFirst kvs "bills" = none) :
    read_bills (FileState.valid (PyVal.obj kvs)) = Except.ok (PyVal.arr []) ∧
    (∀ name value due monthly,
      add_bill (FileState.valid (PyVal.obj kvs)) name value due monthly =
        Except.error PyErr.keyError) ∧
    (∀ i, delete_bill (FileState.valid (PyVal.obj kvs)) i =
        Except.error PyErr.keyError) ∧
    (∀ i d, pay_bill (FileState.valid (PyVal.obj kvs)) i d =
        Except.error PyErr.keyError) ∧
    (∀ i, delete_paid_bill (FileState.valid (PyVal.obj kvs)) i =
        Except.error PyErr.keyError) := by
  refine ⟨?_, fun name value due monthly => ?_, fun i => ?_,
    fun i d => ?_, fun i => ?_⟩ <;>
    simp [read_bills, add_bill, delete_bill, pay_bill, delete_paid_bill,
      read_json, pyGet, pyIndex, h, bind, Except.bind]

theorem missing_key_read_defaults_mutators_raise_witness :
    read_bills (FileState.valid (PyVal.obj [])) = Except.ok (PyVal.arr []) ∧
    add_bill (FileState.valid (PyVal.obj [])) "Boleto" (PyVal.num 100) 10 false =
      Except.error PyErr.keyError := by
  obtain ⟨ha, hb, -, -, -⟩ := missing_key_read_defaults_mutators_raise [] rfl
  exact ⟨ha, hb "Boleto" (PyVal.num 100) 10 false⟩

/-- C1 counterexample: on a store holding one record whose
`payment_date` is the unparseable text `"not-a-date"` followed by a
perfectly well-formed record, `read_paid_bills` raises `ValueError`
(from `strptime`) instead of substituting a sentinel and returning the
rest of the collection. -/
theorem read_paid_bills_raises_on_malformed_date :
    read_paid_bills (FileState.valid (PyVal.obj [("bills", PyVal.arr
      [PyVal.obj [("id_paid_bill", PyVal.num 1), ("id_bill", PyVal.num 7),
        ("payment_date", PyVal.str "not-a-date")],
       PyVal.obj [("id_paid_bill", PyVal.num 2), ("id_bill", PyVal.num 8),
        ("payment_date", PyVal.str "2024-03-05")]])])) =
    Except.error PyErr.valueError := rfl

/-- C1 (amended): for every stored paid-bill record whose
`payment_date` fails to convert, `read_paid_bills` propagates the raised
error and aborts the whole read, returning none of the records; no
sentinel is substituted. -/
theorem read_paid_bills_aborts_on_bad_date (kvs : List (String × PyVal))
    (bills : List PyVal) (b : PyVal)
    (hk : lookupFirst kvs "bills" = some (PyVal.arr bills))
    (hb : b ∈ bills) (e : PyErr) (hf : parsePaymentDate b = Except.error e) :
    ∃ e', read_paid_bills (FileState.valid (PyVal.obj kvs)) = Except.error e' := by
  obtain ⟨e', he'⟩ := convertDates_error bills b hb e hf
  exact ⟨e', by simp [read_paid_bills, read_json, pyGet, hk, asList, he',
    bind, Except.bind]⟩

theorem read_paid_bills_aborts_on_bad_date_witness :
    ∃ e', read_paid_bills (FileState.valid (PyVal.obj [("bills", PyVal.arr
      [PyVal.obj [("payment_date", PyVal.str "oops")]])])) = Except.error e' :=
  read_paid_bills_aborts_on_bad_date _ _ _ rfl (List.mem_singleton.mpr rfl)
    PyErr.valueError rfl

/-- C7: writing a collection with `write_json` and reading it back with
`read_json` yields an equal document field-for-field, and payment dates
round-trip losslessly through their `YYYY-MM-DD` text form: parsing the
formatted text of any constructible date gives the date back, and in
particular `date(2024,3,5)` serialises to `"2024-03-05"` and parses back
to `date(2024,3,5)`. -/
theorem write_read_round_trip :
    (∀ doc : PyVal, read_json (write_json doc) = doc) ∧
    (∀ d : PyDate, d.valid → parseDate (formatDate d) = some d) ∧
    formatDate ⟨2024, 3, 5⟩ = "2024-03-05" ∧
    parseDate "2024-03-05" = some ⟨2024, 3, 5⟩ := by
  refine ⟨fun doc => rfl, parseDate_formatDate, ?_, rfl⟩
  simp [formatDate, natToDigits, padZeros,
    Nat.digits_def' (by norm_num : (1:ℕ) < 10)]
  rfl

theorem write_read_round_trip_witness :
    PyDate.valid ⟨2024, 3, 5⟩ ∧
    parseDate (formatDate ⟨2024, 3, 5⟩) = some ⟨2024, 3, 5⟩ :=
  ⟨by decide, write_read_round_trip.2.1 ⟨2024, 3, 5⟩ (by decide)⟩

/-- C2 counterexample: starting from a fresh store, `add_bill` assigns
id 1; `delete_bill 1` succeeds; the next `add_bill` assigns id 1 again —
not 2 — because the id is recomputed as max-of-current + 1, so ids of
deleted records are reused. -/
theorem id_reused_after_delete :
    ((do
      let r1 ← add_bill FileState.missing "a" (PyVal.num 1) 5 false
      let r2 ← delete_bill r1.1 (PyVal.num 1)
      let r3 ← add_bill r2.1 "b" (PyVal.num 2) 6 true
      Except.ok (r2.2, r3.2)) :
      Except PyErr (Bool × List PyVal)) =
    Except.ok (true, [PyVal.obj [("bill_id", PyVal.num 1),
      ("name", PyVal.str "b"), ("value", PyVal.num 2),
      ("due_date", PyVal.num 6), ("monthly_bill", PyVal.bool true)]]) := rfl

theorem pyEq_num_str (n : Int) (s : String) :
    pyEq (PyVal.num n) (PyVal.str s) = false := rfl

theorem delete_bill_absent (kvs : List (String × PyVal)) (bills : List PyVal)
    (target : PyVal) (hk : lookupFirst kvs "bills" = some (PyVal.arr bills))
    (hwf : ∀ b ∈ bills, (idField "bill_id" b).isSome)
    (hall : ∀ b ∈ bills, keepsId "bill_id" target b = true) :
    delete_bill (FileState.valid (PyVal.obj kvs)) target =
      Except.ok (FileState.valid (PyVal.obj kvs), false) := by
  have hkept := removeById_eq_filter "bill_id" target bills hwf
  rw [List.filter_eq_self.mpr hall] at hkept
  simp [delete_bill, read_json, pyIndex, hk, asList, hkept, bind, Except.bind]

theorem delete_bill_present (kvs : List (String × PyVal)) (bills : List PyVal)
    (target : PyVal) (hk : lookupFirst kvs "bills" = some (PyVal.arr bills))
    (hwf : ∀ b ∈ bills, (idField "bill_id" b).isSome)
    (hex : ∃ b ∈ bills, keepsId "bill_id" target b = false) :
    delete_bill (FileState.valid (PyVal.obj kvs)) target =
      Except.ok (write_json (dset (PyVal.obj kvs) "bills"
        (PyVal.arr (bills.filter (keepsId "bill_id" target)))), true) := by
  have hkept := removeById_eq_filter "bill_id" target bills hwf
  have hlt : (bills.filter (keepsId "bill_id" target)).length < bills.length := by
    apply length_filter_lt_of_exists
    obtain ⟨b, hb, hfb⟩ := hex
    exact ⟨b, hb, by simp [hfb]⟩
  simp [delete_bill, read_json, pyIndex, hk, asList, hkept, bind, Except.bind]
  omega

theorem delete_bill_filtered_state (kvs : List (String × PyVal))
    (bills : List PyVal) (target : PyVal)
    (hwf : ∀ b ∈ bills, (idField "bill_id" b).isSome) :
    delete_bill (write_json (dset (PyVal.obj kvs) "bills"
      (PyVal.arr (bills.filter (keepsId "bill_id" target))))) target =
      Except.ok (write_json (dset (PyVal.obj kvs) "bills"
        (PyVal.arr (bills.filter (keepsId "bill_id" target)))), false) := by
  have hwf' : ∀ b ∈ bills.filter (keepsId "bill_id" target),
      (idField "bill_id" b).isSome :=
    fun b hb => hwf b (List.mem_of_mem_filter hb)
  have hkeep' : ∀ b ∈ bills.filter (keepsId "bill_id" target),
      keepsId "bill_id" target b = true :=
    fun b hb => (List.mem_filter.mp hb).2
  have hkept := removeById_eq_filter "bill_id" target _ hwf'
  rw [List.filter_eq_self.mpr hkeep'] at hkept
  simp [delete_bill, read_json, write_json, dset, pyIndex, lookupFirst_setFirst,
    asList, hkept, bind, Except.bind]

theorem delete_paid_bill_absent (kvs : List (String × PyVal)) (bills : List PyVal)
    (target : PyVal) (hk : lookupFirst kvs "bills" = some (PyVal.arr bills))
    (hwf : ∀ b ∈ bills, (idField "id_paid_bill" b).isSome)
    (hall : ∀ b ∈ bills, keepsId "id_paid_bill" target b = true) :
    delete_paid_bill (FileState.valid (PyVal.obj kvs)) target =
      Except.ok (FileState.valid (PyVal.obj kvs), false) := by
  have hkept := removeById_eq_filter "id_paid_bill" target bills hwf
  rw [List.filter_eq_self.mpr hall] at hkept
  simp [delete_paid_bill, read_json, pyIndex, hk, asList, hkept, bind, Except.bind]

theorem delete_paid_bill_present (kvs : List (String × PyVal)) (bills : List PyVal)
    (target : PyVal) (hk : lookupFirst kvs "bills" = some (PyVal.arr bills))
    (hwf : ∀ b ∈ bills, (idField "id_paid_bill" b).isSome)
    (hex : ∃ b ∈ bills, keepsId "id_paid_bill" target b = false) :
    delete_paid_bill (FileState.valid (PyVal.obj kvs)) target =
      Except.ok (write_json (dset (PyVal.obj kvs) "bills"
        (PyVal.arr (bills.filter (keepsId "id_paid_bill" target)))), true) := by
  have hkept := removeById_eq_filter "id_paid_bill" target bills hwf
  have hlt : (bills.filter (keepsId "id_paid_bill" target)).length < bills.length := by
    apply length_filter_lt_of_exists
    obtain ⟨b, hb, hfb⟩ := hex
    exact ⟨b, hb, by simp [hfb]⟩
  simp [delete_paid_bill, read_json, pyIndex, hk, asList, hkept, bind, Except.bind]
  omega

theorem delete_paid_bill_filtered_state (kvs : List (String × PyVal))
    (bills : List PyVal) (target : PyVal)
    (hwf : ∀ b ∈ bills, (idField "id_paid_bill" b).isSome) :
    delete_paid_bill (write_json (dset (PyVal.obj kvs) "bills"
      (PyVal.arr (bills.filter (keepsId "id_paid_bill" target))))) target =
      Except.ok (write_json (dset (PyVal.obj kvs) "bills"
        (PyVal.arr (bills.filter (keepsId "id_paid_bill" target)))), false) := by
  have hwf' : ∀ b ∈ bills.filter (keepsId "id_paid_bill" target),
      (idField "id_paid_bill" b).isSome :=
    fun b hb => hwf b (List.mem_of_mem_filter hb)
  have hkeep' : ∀ b ∈ bills.filter (keepsId "id_paid_bill" target),
      keepsId "id_paid_bill" target b = true :=
    fun b hb => (List.mem_filter.mp hb).2
  have hkept := removeById_eq_filter "id_paid_bill" target _ hwf'
  rw [List.filter_eq_self.mpr hkeep'] at hkept
  simp [delete_paid_bill, read_json, write_json, dset, pyIndex, lookupFirst_setFirst,
    asList, hkept, bind, Except.bind]

/-- C5: for every collection and id, `delete_bill` (and
`delete_paid_bill`) removes the records with that id if present,
persists, and returns true; if the id is absent it returns false without
raising and performs no write, the file state staying exactly the input
state. Deleting the same present id twice returns true the first time
and false the second. -/
theorem delete_contract :
    (∀ kvs bills target,
      lookupFirst kvs "bills" = some (PyVal.arr bills) →
      (∀ b ∈ bills, (idField "bill_id" b).isSome) →
      ((∀ b ∈ bills, keepsId "bill_id" target b = true) →
        delete_bill (FileState.valid (PyVal.obj kvs)) target =
          Except.ok (FileState.valid (PyVal.obj kvs), false)) ∧
      ((∃ b ∈ bills, keepsId "bill_id" target b = false) →
        delete_bill (FileState.valid (PyVal.obj kvs)) target =
          Except.ok (write_json (dset (PyVal.obj kvs) "bills"
            (PyVal.arr (bills.filter (keepsId "bill_id" target)))), true) ∧
        delete_bill (write_json (dset (PyVal.obj kvs) "bills"
            (PyVal.arr (bills.filter (keepsId "bill_id" target))))) target =
          Except.ok (write_json (dset (PyVal.obj kvs) "bills"
            (PyVal.arr (bills.filter (keepsId "bill_id" target)))), false))) ∧
    (∀ kvs bills target,
      lookupFirst kvs "bills" = some (PyVal.arr bills) →
      (∀ b ∈ bills, (idField "id_paid_bill" b).isSome) →
      ((∀ b ∈ bills, keepsId "id_paid_bill" target b = true) →
        delete_paid_bill (FileState.valid (PyVal.obj kvs)) target =
          Except.ok (FileState.valid (PyVal.obj kvs), false)) ∧
      ((∃ b ∈ bills, keepsId "id_paid_bill" target b = false) →
        delete_paid_bill (FileState.valid (PyVal.obj kvs)) target =
          Except.ok (write_json (dset (PyVal.obj kvs) "bills"
            (PyVal.arr (bills.filter (keepsId "id_paid_bill" target)))), true) ∧
        delete_paid_bill (write_json (dset (PyVal.obj kvs) "bills"
            (PyVal.arr (bills.filter (keepsId "id_paid_bill" target))))) target =
          Except.ok (write_json (dset (PyVal.obj kvs) "bills"
            (PyVal.arr (bills.filter (keepsId "id_paid_bill" target)))), false))) := by
  constructor
  · intro kvs bills target hk hwf
    exact ⟨delete_bill_absent kvs bills target hk hwf,
      fun hex => ⟨delete_bill_present kvs bills target hk hwf hex,
        delete_bill_filtered_state kvs bills target hwf⟩⟩
  · intro kvs bills target hk hwf
    exact ⟨delete_paid_bill_absent kvs bills target hk hwf,
      fun hex => ⟨delete_paid_bill_present kvs bills target hk hwf hex,
        delete_paid_bill_filtered_state kvs bills target hwf⟩⟩

theorem delete_contract_witness :
    (delete_bill (FileState.valid (PyVal.obj [("bills", PyVal.arr
        [PyVal.obj [("bill_id", PyVal.num 3)]])])) (PyVal.num 3) =
      Except.ok (write_json (dset
        (PyVal.obj [("bills", PyVal.arr [PyVal.obj [("bill_id", PyVal.num 3)]])])
        "bills" (PyVal.arr ([PyVal.obj [("bill_id", PyVal.num 3)]].filter
          (keepsId "bill_id" (PyVal.num 3))))), true) ∧
      delete_bill (write_json (dset
        (PyVal.obj [("bills", PyVal.arr [PyVal.obj [("bill_id", PyVal.num 3)]])])
        "bills" (PyVal.arr ([PyVal.obj [("bill_id", PyVal.num 3)]].filter
          (keepsId "bill_id" (PyVal.num 3)))))) (PyVal.num 3) =
      Except.ok (write_json (dset
        (PyVal.obj [("bills", PyVal.arr [PyVal.obj [("bill_id", PyVal.num 3)]])])
        "bills" (PyVal.arr ([PyVal.obj [("bill_id", PyVal.num 3)]].filter
          (keepsId "bill_id" (PyVal.num 3))))), false)) ∧
    delete_paid_bill (FileState.valid (PyVal.obj [("bills", PyVal.arr
        [PyVal.obj [("id_paid_bill", PyVal.num 9)]])])) (PyVal.num 4) =
      Except.ok (FileState.valid (PyVal.obj [("bills", PyVal.arr
        [PyVal.obj [("id_paid_bill", PyVal.num 9)]])]), false) := by
  constructor
  · exact (delete_contract.1 [("bills", PyVal.arr
      [PyVal.obj [("bill_id", PyVal.num 3)]])]
      [PyVal.obj [("bill_id", PyVal.num 3)]] (PyVal.num 3) rfl
      (by intro b hb; simp at hb; subst hb; rfl)).2
      ⟨PyVal.obj [("bill_id", PyVal.num 3)], by simp, rfl⟩
  · exact (delete_contract.2 [("bills", PyVal.arr
      [PyVal.obj [("id_paid_bill", PyVal.num 9)]])]
      [PyVal.obj [("id_paid_bill", PyVal.num 9)]] (PyVal.num 4) rfl
      (by intro b hb; simp at hb; subst hb; rfl)).1
      (by intro b hb; simp at hb; subst hb; rfl)

/-- C8: when two or more records share the same id, a single
`delete_bill` (or `delete_paid_bill`) call with that id removes every
record bearing it — the surviving list is the filter of the collection
and contains no matching record — and returns true. -/
theorem delete_removes_all_matching :
    (∀ kvs bills target,
      lookupFirst kvs "bills" = some (PyVal.arr bills) →
      (∀ b ∈ bills, (idField "bill_id" b).isSome) →
      2 ≤ bills.countP (fun b => !keepsId "bill_id" target b) →
      delete_bill (FileState.valid (PyVal.obj kvs)) target =
        Except.ok (write_json (dset (PyVal.obj kvs) "bills"
          (PyVal.arr (bills.filter (keepsId "bill_id" target)))), true) ∧
      (bills.filter (keepsId "bill_id" target)).countP
        (fun b => !keepsId "bill_id" target b) = 0) ∧
    (∀ kvs bills target,
      lookupFirst kvs "bills" = some (PyVal.arr bills) →
      (∀ b ∈ bills, (idField "id_paid_bill" b).isSome) →
      2 ≤ bills.countP (fun b => !keepsId "id_paid_bill" target b) →
      delete_paid_bill (FileState.valid (PyVal.obj kvs)) target =
        Except.ok (write_json (dset (PyVal.obj kvs) "bills"
          (PyVal.arr (bills.filter (keepsId "id_paid_bill" target)))), true) ∧
      (bills.filter (keepsId "id_paid_bill" target)).countP
        (fun b => !keepsId "id_paid_bill" target b) = 0) := by
  constructor
  · intro kvs bills target hk hwf hcnt
    have hex : ∃ b ∈ bills, keepsId "bill_id" target b = false := by
      have hpos : 0 < bills.countP (fun b => !keepsId "bill_id" target b) := by omega
      obtain ⟨b, hb, hpb⟩ := List.countP_pos_iff.mp hpos
      exact ⟨b, hb, by simpa using hpb⟩
    refine ⟨delete_bill_present kvs bills target hk hwf hex, ?_⟩
    rw [List.countP_eq_zero]
    intro b hb
    simp [(List.mem_filter.mp hb).2]
  · intro kvs bills target hk hwf hcnt
    have hex : ∃ b ∈ bills, keepsId "id_paid_bill" target b = false := by
      have hpos : 0 < bills.countP (fun b => !keepsId "id_paid_bill" target b) := by omega
      obtain ⟨b, hb, hpb⟩ := List.countP_pos_iff.mp hpos
      exact ⟨b, hb, by simpa using hpb⟩
    refine ⟨delete_paid_bill_present kvs bills target hk hwf hex, ?_⟩
    rw [List.countP_eq_zero]
    intro b hb
    simp [(List.mem_filter.mp hb).2]

theorem delete_removes_all_matching_witness :
    delete_bill (FileState.valid (PyVal.obj [("bills", PyVal.arr
      [PyVal.obj [("bill_id", PyVal.num 3), ("name", PyVal.str "a")],
       PyVal.obj [("bill_id", PyVal.num 3), ("name", PyVal.str "b")]])]))
      (PyVal.num 3) =
    Except.ok (write_json (dset (PyVal.obj [("bills", PyVal.arr
      [PyVal.obj [("bill_id", PyVal.num 3), ("name", PyVal.str "a")],
       PyVal.obj [("bill_id", PyVal.num 3), ("name", PyVal.str "b")]])])
      "bills" (PyVal.arr ([PyVal.obj [("bill_id", PyVal.num 3),
        ("name", PyVal.str "a")], PyVal.obj [("bill_id", PyVal.num 3),
        ("name", PyVal.str "b")]].filter (keepsId "bill_id" (PyVal.num 3))))),
      true) := by
  exact ((delete_removes_all_matching.1 [("bills", PyVal.arr
      [PyVal.obj [("bill_id", PyVal.num 3), ("name", PyVal.str "a")],
       PyVal.obj [("bill_id", PyVal.num 3), ("name", PyVal.str "b")]])]
      [PyVal.obj [("bill_id", PyVal.num 3), ("name", PyVal.str "a")],
       PyVal.obj [("bill_id", PyVal.num 3), ("name", PyVal.str "b")]]
      (PyVal.num 3) rfl
      (by intro b hb; simp at hb; rcases hb with rfl | rfl <;> rfl)
      (by rfl))).1

/-- C10: when every stored record id is an integer, deleting with a
string id (for example `"3"` against the stored integer 3) matches no
record under the `!=` comparison and returns false without raising,
leaving the stored collection unchanged. -/
theorem string_id_never_matches_int_ids :
    (∀ kvs bills s,
      lookupFirst kvs "bills" = some (PyVal.arr bills) →
      (∀ b ∈ bills, ∃ n : Int, idField "bill_id" b = some (PyVal.num n)) →
      delete_bill (FileState.valid (PyVal.obj kvs)) (PyVal.str s) =
        Except.ok (FileState.valid (PyVal.obj kvs), false)) ∧
    (∀ kvs bills s,
      lookupFirst kvs "bills" = some (PyVal.arr bills) →
      (∀ b ∈ bills, ∃ n : Int, idField "id_paid_bill" b = some (PyVal.num n)) →
      delete_paid_bill (FileState.valid (PyVal.obj kvs)) (PyVal.str s) =
        Except.ok (FileState.valid (PyVal.obj kvs), false)) := by
  constructor
  · intro kvs bills s hk hids
    apply delete_bill_absent kvs bills (PyVal.str s) hk
    · intro b hb
      obtain ⟨n, hn⟩ := hids b hb
      simp [hn]
    · intro b hb
      obtain ⟨n, hn⟩ := hids b hb
      simp [keepsId, hn, pyEq_num_str]
  · intro kvs bills s hk hids
    apply delete_paid_bill_absent kvs bills (PyVal.str s) hk
    · intro b hb
      obtain ⟨n, hn⟩ := hids b hb
      simp [hn]
    · intro b hb
      obtain ⟨n, hn⟩ := hids b hb
      simp [keepsId, hn, pyEq_num_str]

theorem string_id_never_matches_int_ids_witness :
    delete_paid_bill (FileState.valid (PyVal.obj [("bills", PyVal.arr
      [PyVal.obj [("id_paid_bill", PyVal.num 3)]])])) (PyVal.str "3") =
    Except.ok (FileState.valid (PyVal.obj [("bills", PyVal.arr
      [PyVal.obj [("id_paid_bill", PyVal.num 3)]])]), false) :=
  string_id_never_matches_int_ids.2 [("bills", PyVal.arr
      [PyVal.obj [("id_paid_bill", PyVal.num 3)]])]
    [PyVal.obj [("id_paid_bill", PyVal.num 3)]] "3" rfl
    (by intro b hb; simp at hb; subst hb; exact ⟨3, rfl⟩)

/-- C2 (amended): each newly assigned id is strictly greater than every
id present in the collection at the moment of assignment (it is the
current maximum plus one), for `add_bill` and `pay_bill` alike; but ids
are not never-reused — deleting the record holding the maximum makes its
id assignable again, as the counterexample shows. -/
theorem assigned_id_exceeds_present_ids :
    (∀ kvs bills ns name value due monthly,
      lookupFirst kvs "bills" = some (PyVal.arr bills) →
      billIds "bill_id" bills = Except.ok (List.map PyVal.num ns) →
      (∀ n ∈ ns, n < maxD ns + 1) ∧
      add_bill (FileState.valid (PyVal.obj kvs)) name value due monthly =
        Except.ok (write_json (dset (PyVal.obj kvs) "bills" (PyVal.arr (bills ++
          [PyVal.obj [("bill_id", PyVal.num (maxD ns + 1)),
            ("name", PyVal.str name), ("value", value),
            ("due_date", PyVal.num due),
            ("monthly_bill", PyVal.bool monthly)]]))),
          bills ++ [PyVal.obj [("bill_id", PyVal.num (maxD ns + 1)),
            ("name", PyVal.str name), ("value", value),
            ("due_date", PyVal.num due),
            ("monthly_bill", PyVal.bool monthly)]])) ∧
    (∀ kvs bills ns idb dop,
      lookupFirst kvs "bills" = some (PyVal.arr bills) →
      billIds "id_paid_bill" bills = Except.ok (List.map PyVal.num ns) →
      (∀ n ∈ ns, n < maxD ns + 1) ∧
      pay_bill (FileState.valid (PyVal.obj kvs)) idb dop =
        Except.ok (write_json (dset (PyVal.obj kvs) "bills" (PyVal.arr (bills ++
          [PyVal.obj [("id_paid_bill", PyVal.num (maxD ns + 1)),
            ("id_bill", idb),
            ("payment_date", PyVal.str (formatDate dop))]]))),
          bills ++ [PyVal.obj [("id_paid_bill", PyVal.num (maxD ns + 1)),
            ("id_bill", idb),
            ("payment_date", PyVal.str (formatDate dop))]])) := by
  constructor
  · intro kvs bills ns name value due monthly hk hids
    refine ⟨fun n hn => by have := le_maxD ns n hn; omega, ?_⟩
    simp [add_bill, read_json, pyIndex, hk, asList, hids, pyMaxPlusOne_map_num,
      bind, Except.bind]
  · intro kvs bills ns idb dop hk hids
    refine ⟨fun n hn => by have := le_maxD ns n hn; omega, ?_⟩
    simp [pay_bill, read_json, pyIndex, hk, asList, hids, pyMaxPlusOne_map_num,
      bind, Except.bind]

theorem assigned_id_exceeds_present_ids_witness :
    (∀ n ∈ [(5:Int)], n < maxD [(5:Int)] + 1) ∧
    add_bill (FileState.valid (PyVal.obj [("bills", PyVal.arr
        [PyVal.obj [("bill_id", PyVal.num 5)]])])) "x" (PyVal.num 1) 2 true =
      Except.ok (write_json (dset (PyVal.obj [("bills", PyVal.arr
          [PyVal.obj [("bill_id", PyVal.num 5)]])]) "bills"
        (PyVal.arr ([PyVal.obj [("bill_id", PyVal.num 5)]] ++
          [PyVal.obj [("bill_id", PyVal.num (maxD [(5:Int)] + 1)),
            ("name", PyVal.str "x"), ("value", PyVal.num 1),
            ("due_date", PyVal.num 2),
            ("monthly_bill", PyVal.bool true)]]))),
        [PyVal.obj [("bill_id", PyVal.num 5)]] ++
          [PyVal.obj [("bill_id", PyVal.num (maxD [(5:Int)] + 1)),
            ("name", PyVal.str "x"), ("value", PyVal.num 1),
            ("due_date", PyVal.num 2),
            ("monthly_bill", PyVal.bool true)]]) :=
  assigned_id_exceeds_present_ids.1 [("bills", PyVal.arr
      [PyVal.obj [("bill_id", PyVal.num 5)]])]
    [PyVal.obj [("bill_id", PyVal.num 5)]] [(5:Int)] "x" (PyVal.num 1) 2 true
    rfl rfl

/-- C6: `add_bill` assigns the new record the id (maximum existing id,
or 0 if none) + 1, inserts a record carrying the given name, value, due
day and monthly flag, persists, and returns the updated collection;
`pay_bill` assigns its id the same way and stores the payment date as
hyphen-separated `YYYY-MM-DD` text; on a fresh store the first
`add_bill` yields id 1. -/
theorem add_pay_assign_max_plus_one :
    (∀ kvs bills ns name value due monthly,
      lookupFirst kvs "bills" = some (PyVal.arr bills) →
      billIds "bill_id" bills = Except.ok (List.map PyVal.num ns) →
      add_bill (FileState.valid (PyVal.obj kvs)) name value due monthly =
        Except.ok (write_json (dset (PyVal.obj kvs) "bills" (PyVal.arr (bills ++
          [PyVal.obj [("bill_id", PyVal.num (maxD ns + 1)),
            ("name", PyVal.str name), ("value", value),
            ("due_date", PyVal.num due),
            ("monthly_bill", PyVal.bool monthly)]]))),
          bills ++ [PyVal.obj [("bill_id", PyVal.num (maxD ns + 1)),
            ("name", PyVal.str name), ("value", value),
            ("due_date", PyVal.num due),
            ("monthly_bill", PyVal.bool monthly)]])) ∧
    (∀ kvs bills ns idb dop,
      lookupFirst kvs "bills" = some (PyVal.arr bills) →
      billIds "id_paid_bill" bills = Except.ok (List.map PyVal.num ns) →
      pay_bill (FileState.valid (PyVal.obj kvs)) idb dop =
        Except.ok (write_json (dset (PyVal.obj kvs) "bills" (PyVal.arr (bills ++
          [PyVal.obj [("id_paid_bill", PyVal.num (maxD ns + 1)),
            ("id_bill", idb),
            ("payment_date", PyVal.str (formatDate dop))]]))),
          bills ++ [PyVal.obj [("id_paid_bill", PyVal.num (maxD ns + 1)),
            ("id_bill", idb),
            ("payment_date", PyVal.str (formatDate dop))]])) ∧
    (∀ name value due monthly,
      add_bill FileState.missing name value due monthly =
        Except.ok (write_json (PyVal.obj [("bills", PyVal.arr
          [PyVal.obj [("bill_id", PyVal.num 1), ("name", PyVal.str name),
            ("value", value), ("due_date", PyVal.num due),
            ("monthly_bill", PyVal.bool monthly)]])]),
          [PyVal.obj [("bill_id", PyVal.num 1), ("name", PyVal.str name),
            ("value", value), ("due_date", PyVal.num due),
            ("monthly_bill", PyVal.bool monthly)]])) := by
  refine ⟨?_, ?_, fun name value due monthly => rfl⟩
  · intro kvs bills ns name value due monthly hk hids
    simp [add_bill, read_json, pyIndex, hk, asList, hids, pyMaxPlusOne_map_num,
      bind, Except.bind]
  · intro kvs bills ns idb dop hk hids
    simp [pay_bill, read_json, pyIndex, hk, asList, hids, pyMaxPlusOne_map_num,
      bind, Except.bind]

theorem add_pay_assign_max_plus_one_witness :
    pay_bill (FileState.valid (PyVal.obj [("bills", PyVal.arr
        [PyVal.obj [("id_paid_bill", PyVal.num 4)]])])) (PyVal.num 5)
        ⟨2024, 3, 5⟩ =
      Except.ok (write_json (dset (PyVal.obj [("bills", PyVal.arr
          [PyVal.obj [("id_paid_bill", PyVal.num 4)]])]) "bills"
        (PyVal.arr ([PyVal.obj [("id_paid_bill", PyVal.num 4)]] ++
          [PyVal.obj [("id_paid_bill", PyVal.num (maxD [(4:Int)] + 1)),
            ("id_bill", PyVal.num 5),
            ("payment_date", PyVal.str (formatDate ⟨2024, 3, 5⟩))]]))),
        [PyVal.obj [("id_paid_bill", PyVal.num 4)]] ++
          [PyVal.obj [("id_paid_bill", PyVal.num (maxD [(4:Int)] + 1)),
            ("id_bill", PyVal.num 5),
            ("payment_date", PyVal.str (formatDate ⟨2024, 3, 5⟩))]]) :=
  add_pay_assign_max_plus_one.2.1 [("bills", PyVal.arr
      [PyVal.obj [("id_paid_bill", PyVal.num 4)]])]
    [PyVal.obj [("id_paid_bill", PyVal.num 4)]] [(4:Int)] (PyVal.num 5)
    ⟨2024, 3, 5⟩ rfl rfl
